import Mathlib

/-!
# Verification of the NL-to-SQL query pipeline

Shallow embedding of the query pipeline of `GenAI_Data_Analyst_Agent`
(`backend/app/services/query_engine.py`, `backend/app/services/llm_sql.py`,
`backend/app/core/utils.py`).

Python strings are modelled as `List Char`; Python string methods
(`strip`, `lower`, `replace(pat, "")`, `find`, `split`, the `in` operator,
`startswith`, `endswith`) are modelled by executable list functions below.
External effects (the Groq text-generation backend, the retrieval subsystem,
and SQLite execution through `pandas.read_sql_query`) are modelled as oracles
packaged in an `Env` record; the orchestrator threads an explicit trace of
every SQL string it submits for execution.
-/

namespace DataAnalyst

/-- Python `str` as a list of characters. -/
abbrev Str := List Char

/-- Python `s.lower()` (per-character, ASCII behaviour). -/
def pyLower (l : Str) : Str := l.map Char.toLower

/-- Python `s.lstrip()`. -/
def pyStripLeft (l : Str) : Str := l.dropWhile Char.isWhitespace

/-- Python `s.rstrip()`. -/
def pyStripRight (l : Str) : Str := (l.reverse.dropWhile Char.isWhitespace).reverse

/-- Python `s.strip()`. -/
def pyStrip (l : Str) : Str := pyStripRight (pyStripLeft l)

/-- Python `pat in s` (substring test). -/
def pyIn (pat : Str) : Str → Bool
  | [] => pat.isPrefixOf []
  | c :: rest => pat.isPrefixOf (c :: rest) || pyIn pat rest

/-- Fuelled worker for `pyReplace`; fuel is the length of the scanned list. -/
def pyReplaceAux (pat : Str) : Nat → Str → Str
  | _, [] => []
  | 0, l => l
  | fuel + 1, c :: rest =>
    if pat ≠ [] ∧ pat.isPrefixOf (c :: rest) then
      pyReplaceAux pat fuel (rest.drop (pat.length - 1))
    else
      c :: pyReplaceAux pat fuel rest

/-- Python `s.replace(pat, "")`: delete every non-overlapping occurrence of
`pat`, scanning from the left (the only replacement form `clean_sql` uses). -/
def pyReplace (pat : Str) (l : Str) : Str := pyReplaceAux pat l.length l

/-- Python `s.find(pat)`: index of the first occurrence, `none` for `-1`. -/
def pyFind (pat : Str) : Str → Option Nat
  | [] => if pat.isPrefixOf [] then some 0 else none
  | c :: rest =>
    if pat.isPrefixOf (c :: rest) then some 0
    else (pyFind pat rest).map (· + 1)

/-- Fuelled worker for `pySplit`; `acc` is the current (reversed) segment. -/
def pySplitAux (sep : Str) : Nat → Str → Str → List Str
  | _, [], acc => [acc.reverse]
  | 0, l, acc => [acc.reverse ++ l]
  | fuel + 1, c :: rest, acc =>
    if sep ≠ [] ∧ sep.isPrefixOf (c :: rest) then
      acc.reverse :: pySplitAux sep fuel (rest.drop (sep.length - 1)) []
    else
      pySplitAux sep fuel rest (c :: acc)

/-- Python `s.split(sep)` for a non-empty separator. -/
def pySplit (sep : Str) (l : Str) : List Str := pySplitAux sep l.length l []

/-- The literal "```". -/
def bq3 : Str := "```".toList

/-- The literal "```sql". -/
def bq3sql : Str := "```sql".toList

/-- The literal "select". -/
def sel : Str := "select".toList

/-- The `if text.startswith("```")` branch of `clean_sql`:
`text.replace("```sql", "").replace("```", "").strip()`. -/
def fenceStep (t : Str) : Str :=
  if bq3.isPrefixOf t then pyStrip (pyReplace bq3 (pyReplace bq3sql t)) else t

/-- The `idx = text.lower().find("select"); if idx != -1: text = text[idx:]`
step of `clean_sql`. -/
def selStep (t : Str) : Str :=
  match pyFind sel (pyLower t) with
  | some i => t.drop i
  | none => t

/-- The `if text.endswith(";"): text = text[:-1]` step of `clean_sql`. -/
def semiStep (t : Str) : Str :=
  if t.getLast? = some ';' then t.dropLast else t

/-- `llm_sql.clean_sql`: strip whitespace, remove backtick fences, keep the
text from the first case-insensitive `select` on, drop one trailing `;`,
strip again. -/
def clean_sql (text : Str) : Str :=
  if text = [] then []
  else pyStrip (semiStep (selStep (pyStrip (pyReplace bq3 (fenceStep (pyStrip text))))))

example : clean_sql "```sql\nSELECT * FROM data;\n```".toList = "SELECT * FROM data".toList := by decide

example : clean_sql "select 1;;".toList = "select 1;".toList := by decide

example : clean_sql (clean_sql "select 1;;".toList) = "select 1".toList := by decide

/-! ## The text-generation (LLM) layer, `llm_sql.py`

The Groq backend is external: each call is modelled by an oracle value
`raw : Option Str` — `none` for "unreachable / non-200 / missing key /
exception / empty choices", `some content` for a returned message text. -/

/-- `llm_sql.call_llm_extract_sql`: returns the cleaned response, or `none`
when the backend failed or returned empty content. -/
def call_llm_extract_sql (raw : Option Str) : Option Str :=
  match raw with
  | none => none
  | some content => if content = [] then none else some (clean_sql content)

/-- `llm_sql.generate_sql_with_llm`. With `schemaMode = true` the raw backend
text is used directly (`call_llm_for_sql`); otherwise the RAG path goes
through `call_llm_extract_sql` (which already cleans once). The result is
cleaned and must contain `select`, else `none`. -/
def generate_sql_with_llm (raw : Option Str) (schemaMode : Bool) : Option Str :=
  let r := if schemaMode then raw else call_llm_extract_sql raw
  match r with
  | none => none
  | some raw2 =>
    if raw2 = [] then none
    else
      let sql := clean_sql raw2
      if pyIn sel (pyLower sql) then some sql else none

/-- `llm_sql.fix_sql_with_llm`: ask the backend to repair `broken_sql`.
When no usable candidate comes back, the *broken SQL itself* is returned
(per its docstring: "Returns cleaned SQL string or fallback to the old
SQL"). -/
def fix_sql_with_llm (raw : Option Str) (broken_sql : Str) : Str :=
  match call_llm_extract_sql raw with
  | none => broken_sql
  | some s =>
    if s = [] || ! pyIn sel (pyLower s) then broken_sql
    else pyStrip s

/-! ## The intent extractor and rule-based builder, `query_engine.py`

`difflib.SequenceMatcher(None, a, b).ratio()` is an external library
routine; it is modelled as an abstract score function
`sim : Str → Str → ℚ` passed as a parameter (only the comparisons
`score > best_score` matter to the code). -/

/-- The schema dictionary consumed via `column_types.get(...)`; each field is
`none` when the key is missing. -/
structure Schema where
  numerical_columns : Option (List Str) := none
  numeric : Option (List Str) := none
  number : Option (List Str) := none
  categorical_columns : Option (List Str) := none
  categorical : Option (List Str) := none

/-- Python `a or b` for `dict.get` results: `a` unless it is `None` or an
empty list. -/
def pyOrGet (a : Option (List Str)) (b : List Str) : List Str :=
  match a with
  | some l => if l = [] then b else l
  | none => b

/-- `column_types.get("numerical_columns") or .get("numeric") or .get("number") or []`. -/
def schemaNumericCols (s : Schema) : List Str :=
  pyOrGet s.numerical_columns (pyOrGet s.numeric (pyOrGet s.number []))

/-- `column_types.get("categorical_columns") or column_types.get("categorical") or []`. -/
def schemaCategoryCols (s : Schema) : List Str :=
  pyOrGet s.categorical_columns (pyOrGet s.categorical [])

/-- `query_engine.AGG_KEYWORDS`, in dict insertion order. -/
def AGG_KEYWORDS : List (Str × List Str) :=
  [("avg".toList, ["average".toList, "avg".toList, "mean".toList]),
   ("sum".toList, ["sum".toList, "total".toList]),
   ("count".toList, ["count".toList, "number of".toList, "how many".toList]),
   ("max".toList, ["max".toList, "highest".toList, "largest".toList]),
   ("min".toList, ["min".toList, "lowest".toList, "smallest".toList])]

/-- `query_engine.AGG_SQL_MAP`. -/
def AGG_SQL_MAP : List (Str × Str) :=
  [("avg".toList, "AVG".toList), ("sum".toList, "SUM".toList),
   ("count".toList, "COUNT".toList), ("max".toList, "MAX".toList),
   ("min".toList, "MIN".toList)]

/-- `AGG_SQL_MAP[agg_key]` (the key is always present at call sites). -/
def lookupAgg (k : Str) : Str :=
  ((AGG_SQL_MAP.find? (fun p => p.1 == k)).map (·.2)).getD []

/-- The keyword scan of `detect_metric_and_agg`: first kind (in dict order)
one of whose keywords occurs in the lowered question. -/
def findAggKey (q : Str) : List (Str × List Str) → Option Str
  | [] => none
  | (key, words) :: rest =>
    if words.any (fun w => pyIn w q) then some key else findAggKey q rest

/-- The best-similarity loop shared by metric and group-by detection:
`best_col = None; best_score = 0; update on score > best_score`. -/
def simLoop (sim : Str → Str → ℚ) (q_comp : Str) :
    List Str → Option Str → ℚ → Option Str
  | [], best, _ => best
  | col :: rest, best, best_score =>
    let score := sim q_comp (pyReplace " ".toList (pyLower col))
    if best_score < score then simLoop sim q_comp rest (some col) score
    else simLoop sim q_comp rest best best_score

/-- Python truthiness of `best_col` (`None` or `""` are falsy). -/
def optFalsy : Option Str → Bool
  | none => true
  | some s => s.isEmpty

/-- `query_engine.detect_metric_and_agg` (returns `(best_col, agg_func)`). -/
def detect_metric_and_agg (sim : Str → Str → ℚ) (question : Str)
    (column_types : Schema) : Option Str × Str :=
  let q_clean := pyLower question
  let agg_key := (findAggKey q_clean AGG_KEYWORDS).getD "count".toList
  let agg_func := lookupAgg agg_key
  let numeric_cols := schemaNumericCols column_types
  let q_comp := pyReplace " ".toList q_clean
  let best_col := simLoop sim q_comp numeric_cols none 0
  let best_col :=
    if optFalsy best_col && ! numeric_cols.isEmpty then some (numeric_cols.headD [])
    else best_col
  (best_col, agg_func)

/-- `query_engine.detect_group_by`. -/
def detect_group_by (sim : Str → Str → ℚ) (question : Str)
    (column_types : Schema) : Option Str :=
  let q := pyLower question
  let category_cols := schemaCategoryCols column_types
  if category_cols = [] then none
  else
    let byHit :=
      if pyIn " by ".toList q then
        let after_by := pyStrip ((pySplit " by ".toList q).getD 1 [])
        category_cols.find? (fun col => pyIn after_by (pyLower col))
      else none
    match byHit with
    | some col => some col
    | none =>
      let q_comp := pyReplace " ".toList q
      simLoop sim q_comp category_cols none 0

/-- `query_engine.QueryIntent` (dataclass; `filters` and `limit` are never
consumed by `build_sql_from_intent`). -/
structure QueryIntent where
  metric : Option Str := none
  agg_func : Option Str := none
  group_by : Option Str := none
  filters : List Str := []
  limit : Option Nat := none

/-- `query_engine.build_sql_from_intent`: renders the two f-string templates
(including their internal indentation) and applies `.strip()`. -/
def build_sql_from_intent (intent : QueryIntent) (table_name : Str) : Str :=
  let aggStr := intent.agg_func.getD "None".toList
  let metric_expr :=
    match intent.metric with
    | some m =>
      if m = [] then aggStr ++ "(*)".toList
      else aggStr ++ "(".toList ++ m ++ ")".toList
    | none => aggStr ++ "(*)".toList
  let plain :=
    pyStrip ("\n        SELECT ".toList ++ metric_expr ++ " AS value\n        FROM ".toList
      ++ table_name ++ ";\n    ".toList)
  match intent.group_by with
  | some g =>
    if g = [] then plain
    else
      pyStrip ("\n            SELECT ".toList ++ g ++ " AS group_col,\n                   ".toList
        ++ metric_expr ++ " AS value\n            FROM ".toList ++ table_name
        ++ "\n            GROUP BY ".toList ++ g ++ "\n            ORDER BY value DESC;\n        ".toList)
  | none => plain

/-- The preview keywords of `question_to_sql`. -/
def PREVIEW_WORDS : List Str :=
  ["sample".toList, "preview".toList, "show data".toList, "show me".toList,
   "display".toList, "first rows".toList, "head".toList]

/-- `query_engine.question_to_sql` (the rule-based fallback builder). -/
def question_to_sql (sim : Str → Str → ℚ) (question : Str)
    (columns_types : Schema) (table_name : Str) : Str :=
  let q := pyLower question
  if PREVIEW_WORDS.any (fun w => pyIn w q) then
    "SELECT * FROM ".toList ++ table_name ++ " LIMIT 50;".toList
  else if pyIn "count".toList q && ! pyIn "by".toList q then
    "SELECT COUNT(*) AS value FROM ".toList ++ table_name ++ ";".toList
  else
    let ma := detect_metric_and_agg sim question columns_types
    let group := detect_group_by sim question columns_types
    build_sql_from_intent
      { metric := ma.1, agg_func := some ma.2, group_by := group } table_name

/-! ## The column classifier, `core/utils.py`

A dataset column is modelled by its name, its pandas dtype, and — for the
date heuristic — one Boolean per row saying whether
`pd.to_datetime(str(value), errors="coerce")` parses that row's value. -/

/-- The pandas dtype of a column, as far as the classifier inspects it. -/
inductive Dtype
  | int64 | float64 | otherNumeric | boolean | object
  deriving DecidableEq

/-- `pandas.api.types.is_numeric_dtype` (numeric kinds, including bool). -/
def is_numeric_dtype : Dtype → Bool
  | .int64 | .float64 | .otherNumeric | .boolean => true
  | .object => false

/-- `pandas.api.types.is_bool_dtype`. -/
def is_bool_dtype : Dtype → Bool
  | .boolean => true
  | _ => false

/-- Membership test of `df.select_dtypes(include=["int64", "float64"])`. -/
def is64Numeric : Dtype → Bool
  | .int64 | .float64 => true
  | _ => false

/-- One column of a dataset. -/
structure Column where
  name : Str
  dtype : Dtype
  dateParse : List Bool

/-- `utils.detect_date_column`: numeric/boolean dtypes are never dates;
otherwise a date iff ≥ 70% of the rows parse as datetimes (the mean over an
empty series is NaN and `NaN >= 0.7` is `False`). -/
def detect_date_column (s : Column) : Bool :=
  if is_numeric_dtype s.dtype || is_bool_dtype s.dtype then false
  else
    match s.dateParse with
    | [] => false
    | l => decide (7 * l.length ≤ 10 * l.count true)

/-- The result dictionary of `detect_column_types` (both naming styles). -/
structure DetectedTypes where
  numeric : List Str
  categorical : List Str
  date : List Str
  numerical_columns : List Str
  categorical_columns : List Str
  date_columns : List Str

/-- `df[col]`: the column of `df` named `n` (first match; datasets have
unique column names). -/
def dfGet (df : List Column) (n : Str) : Column :=
  (df.find? (fun c => c.name == n)).getD ⟨[], Dtype.object, []⟩

/-- The classification loop of `detect_column_types` over `df.columns`:
skip names already classified numeric, then date vs categorical.
Returns `(date_cols, categorical_cols)` in iteration order. -/
def classifyLoop (df : List Column) (numeric_cols : List Str) :
    List Str → List Str × List Str
  | [] => ([], [])
  | n :: rest =>
    let r := classifyLoop df numeric_cols rest
    if n ∈ numeric_cols then r
    else if detect_date_column (dfGet df n) then (n :: r.1, r.2)
    else (r.1, n :: r.2)

/-- `utils.detect_column_types`. -/
def detect_column_types (df : List Column) : DetectedTypes :=
  let numeric_cols := (df.filter (fun c => is64Numeric c.dtype)).map (·.name)
  let dc := classifyLoop df numeric_cols (df.map (·.name))
  { numeric := numeric_cols, categorical := dc.2, date := dc.1,
    numerical_columns := numeric_cols, categorical_columns := dc.2,
    date_columns := dc.1 }

/-! ## The query orchestrator, `query_engine.run_sql_with_correction`

External effects are an `Env`: the retrieved dataset context (already
exception-handled and capped by the caller-side code), one raw backend
response for the generation call, one per repair attempt (indexed by attempt
number — the repair prompt only feeds the oracle), and the dataset store as
a deterministic `exec`. The orchestrator is additionally instrumented to
return, as the second component, the trace of every SQL string it submits
to `exec`, in submission order. -/

/-- `query_engine.MAX_RETRIES`. -/
def MAX_RETRIES : Nat := 3

/-- The external world of one `run_sql_with_correction` call. -/
structure Env (α : Type) where
  ragContext : Str
  genRaw : Option Str
  fixRaw : Nat → Option Str
  exec : Str → Except Str α

/-- The `for _ in range(MAX_RETRIES)` execute/repair loop. Returns
`(some (sql, rows), trace)` on a successful execution, `(none, trace)` when
the loop falls through to the fallback. -/
def correctionLoop {α : Type} (env : Env α) : Nat → Nat → Str → Option (Str × α) × List Str
  | 0, _, _ => (none, [])
  | fuel + 1, i, sql =>
    match env.exec sql with
    | .ok df => (some (sql, df), [sql])
    | .error _e =>
      let fixed := fix_sql_with_llm (env.fixRaw i) sql
      if fixed = [] || ! pyIn sel (pyLower fixed) then (none, [sql])
      else
        let r := correctionLoop env fuel (i + 1) fixed
        (r.1, sql :: r.2)

/-- The fallback tail of `run_sql_with_correction`: build the rule-based SQL,
execute it, return rows or `"SQL Error in fallback: " + str(e)`. -/
def runFallback {α : Type} (sim : Str → Str → ℚ) (env : Env α) (question : Str)
    (schema : Schema) : (Str × Except Str α) × List Str :=
  let fallback_sql := question_to_sql sim question schema "data".toList
  match env.exec fallback_sql with
  | .ok df => ((fallback_sql, Except.ok df), [fallback_sql])
  | .error e =>
    ((fallback_sql, Except.error ("SQL Error in fallback: ".toList ++ e)), [fallback_sql])

/-- The generation-and-validation head of `run_sql_with_correction`: choose
the RAG or schema prompt mode from the retrieved context, call the drafter,
then re-check `if not sql or "select" not in sql.lower(): sql = None`. -/
def initialCandidate {α : Type} (env : Env α) : Option Str :=
  let dataset_context := env.ragContext
  let sql0 :=
    if pyStrip dataset_context ≠ [] then generate_sql_with_llm env.genRaw false
    else generate_sql_with_llm env.genRaw true
  match sql0 with
  | none => none
  | some s => if s = [] || ! pyIn sel (pyLower s) then none else some s

/-- `query_engine.run_sql_with_correction`. The history context only
enriches the generation prompt (absorbed by the oracle), hence the unused
binder. -/
def run_sql_with_correction {α : Type} (sim : Str → Str → ℚ) (env : Env α)
    (question : Str) (schema : Schema) (_history_context : Option Str) :
    (Str × Except Str α) × List Str :=
  match initialCandidate env with
  | some sql =>
    match correctionLoop env MAX_RETRIES 0 sql with
    | (some (s, df), tr) => ((s, Except.ok df), tr)
    | (none, tr) =>
      let fb := runFallback sim env question schema
      (fb.1, tr ++ fb.2)
  | none => runFallback sim env question schema

/-! ## Concrete inputs used by witnesses and counterexamples -/

/-- The backtick character (avoiding a literal backtick in code). -/
def btick : Char := "`".toList.headD ' '

/-- Concrete environment for the C1 witness: generation unreachable and a
store that rejects everything, so the error path is exercised. -/
def c1Env : Env Unit :=
  { ragContext := [], genRaw := none, fixRaw := fun _ => none,
    exec := fun _ => Except.error "no such table: data".toList }

/-- Concrete environment for the C3 witness: a valid generative candidate
that the store rejects, a silent repair backend, and a store on which the
rule-based fallback query itself succeeds. -/
def c3Env : Env Unit :=
  { ragContext := [], genRaw := some "SELECT a FROM data".toList,
    fixRaw := fun _ => none,
    exec := fun s =>
      if s = "SELECT COUNT(*) AS value FROM data;".toList then Except.ok ()
      else Except.error "no such column: a".toList }

/-- Concrete environment for C2: the drafter proposes a multi-statement
text whose second statement is destructive; the store rejects everything. -/
def c2Env : Env Unit :=
  { ragContext := [], genRaw := some "select 1; DROP TABLE data".toList,
    fixRaw := fun _ => none, exec := fun _ => Except.error "err".toList }

/-- Classification with two numeric columns for the C10 witness. -/
def c10Schema : Schema := { numerical_columns := some ["salary".toList, "age".toList] }

/-- A small three-column dataset for the C6 witness. -/
def c6Df : List Column :=
  [⟨"id".toList, Dtype.int64, []⟩,
   ⟨"city".toList, Dtype.object, [false, false, true]⟩,
   ⟨"when".toList, Dtype.object, [true, true, true]⟩]

/-- Classification for the C5 witness. -/
def c5Schema : Schema :=
  { categorical_columns := some ["department".toList, "role".toList] }

/-! ## Lemmas about the string model -/

/-- The Python `in` test decides the infix relation. -/
theorem pyIn_iff {pat l : Str} : pyIn pat l = true ↔ pat <:+: l := by
  induction l with
  | nil => simp [pyIn, List.isPrefixOf_iff_prefix]
  | cons c rest ih =>
    simp [pyIn, List.isPrefixOf_iff_prefix, ih, List.infix_cons_iff]

theorem dropWhile_head?_false {p : Char → Bool} {l : List Char} {c : Char}
    (h : (l.dropWhile p).head? = some c) : p c = false := by
  have hw := List.head?_dropWhile_not p l
  rw [h] at hw
  exact hw

theorem dropWhile_dropWhile (p : Char → Bool) (l : List Char) :
    (l.dropWhile p).dropWhile p = l.dropWhile p := by
  cases h : l.dropWhile p with
  | nil => rfl
  | cons x xs =>
    have hx : p x = false := dropWhile_head?_false (by rw [h]; rfl)
    simp [List.dropWhile_cons, hx]

theorem pyStripLeft_idem (l : Str) : pyStripLeft (pyStripLeft l) = pyStripLeft l :=
  dropWhile_dropWhile _ l

theorem pyStripRight_idem (l : Str) : pyStripRight (pyStripRight l) = pyStripRight l := by
  unfold pyStripRight
  rw [List.reverse_reverse, dropWhile_dropWhile]

theorem pyStripRight_prefix_self (l : Str) : pyStripRight l <+: l := by
  have h : (l.reverse.dropWhile Char.isWhitespace).reverse <+: l.reverse.reverse :=
    List.reverse_prefix.2 (List.dropWhile_suffix _)
  simpa [pyStripRight] using h

theorem pyStripLeft_suffix_self (l : Str) : pyStripLeft l <:+ l := List.dropWhile_suffix _

theorem pyStrip_infix_self (l : Str) : pyStrip l <:+: l :=
  ((pyStripRight_prefix_self (pyStripLeft l)).isInfix).trans (pyStripLeft_suffix_self l).isInfix

theorem pyStripLeft_eq_self {l : Str} (h : ∀ c, l.head? = some c → c.isWhitespace = false) :
    pyStripLeft l = l := by
  cases l with
  | nil => rfl
  | cons c rest =>
    have := h c rfl
    simp [pyStripLeft, List.dropWhile_cons, this]

theorem pyStripRight_eq_self {l : Str}
    (h : ∀ c, l.getLast? = some c → c.isWhitespace = false) : pyStripRight l = l := by
  show (pyStripLeft l.reverse).reverse = l
  rw [pyStripLeft_eq_self (l := l.reverse) (by intro c hc; exact h c (by simpa using hc))]
  exact l.reverse_reverse

theorem prefix_head?_some {l₁ l₂ : List Char} (h : l₁ <+: l₂) {c : Char}
    (hc : l₁.head? = some c) : l₂.head? = some c := by
  obtain ⟨t, rfl⟩ := h
  cases l₁ with
  | nil => simp at hc
  | cons a l => simpa using hc

theorem pyStrip_idem (l : Str) : pyStrip (pyStrip l) = pyStrip l := by
  show pyStripRight (pyStripLeft (pyStripRight (pyStripLeft l))) = _
  have h1 : pyStripLeft (pyStripRight (pyStripLeft l)) = pyStripRight (pyStripLeft l) := by
    apply pyStripLeft_eq_self
    intro c hc
    exact dropWhile_head?_false
      (prefix_head?_some (pyStripRight_prefix_self (pyStripLeft l)) hc)
  rw [h1, pyStripRight_idem]
  rfl

theorem pyFind_some_drop {pat l : Str} {i : Nat} (h : pyFind pat l = some i) :
    pat <+: l.drop i := by
  induction l generalizing i with
  | nil =>
    unfold pyFind at h
    split at h
    · rename_i hp
      cases h
      simpa [List.isPrefixOf_iff_prefix] using hp
    · cases h
  | cons c rest ih =>
    unfold pyFind at h
    split at h
    · rename_i hp
      cases h
      simpa [List.isPrefixOf_iff_prefix] using hp
    · cases hf : pyFind pat rest with
      | none => rw [hf] at h; cases h
      | some j =>
        rw [hf] at h
        simp only [Option.map_some'] at h
        cases h
        simpa using ih hf

theorem pyFind_prefix_zero {pat l : Str} (h : pat <+: l) : pyFind pat l = some 0 := by
  cases l with
  | nil =>
    have : pat = [] := List.prefix_nil.mp h
    simp [pyFind, this]
  | cons c rest =>
    have : pat.isPrefixOf (c :: rest) = true := List.isPrefixOf_iff_prefix.mpr h
    simp [pyFind, this]

theorem not_infix_of_pyFind_none {pat l : Str} (h : pyFind pat l = none) : ¬ pat <:+: l := by
  induction l with
  | nil =>
    unfold pyFind at h
    split at h
    · cases h
    · rename_i hp
      rw [List.infix_nil]
      rintro rfl
      simp at hp
  | cons c rest ih =>
    unfold pyFind at h
    split at h
    · cases h
    · rename_i hp
      rw [List.infix_cons_iff]
      rintro (hc | hc)
      · exact hp (List.isPrefixOf_iff_prefix.mpr hc)
      · cases hf : pyFind pat rest with
        | some j => rw [hf] at h; cases h
        | none => exact ih hf hc

theorem pyReplaceAux_no_occur {pat : Str} :
    ∀ fuel l, ¬ pat <:+: l → pyReplaceAux pat fuel l = l := by
  intro fuel
  induction fuel with
  | zero => intro l _; cases l <;> rfl
  | succ n ih =>
    intro l h
    cases l with
    | nil => rfl
    | cons c rest =>
      rw [pyReplaceAux, if_neg, ih rest (fun hinf => h (List.infix_cons_iff.mpr (Or.inr hinf)))]
      rintro ⟨-, hpre⟩
      exact h (List.isPrefixOf_iff_prefix.mp hpre).isInfix

theorem single_prefix_iff_head (b : Char) (m : Str) : [b] <+: m ↔ m.head? = some b := by
  cases m with
  | nil => simp
  | cons c t => simp [List.cons_prefix_cons, eq_comm]

theorem pyReplaceAux_head_ne {b c : Char} (hcb : c ≠ b) (fuel : Nat) (rest : Str) :
    (pyReplaceAux [b, b, b] fuel (c :: rest)).head? = some c := by
  cases fuel with
  | zero => rfl
  | succ n =>
    rw [pyReplaceAux, if_neg]
    · rfl
    · rintro ⟨-, hpre⟩
      rcases List.cons_prefix_cons.mp (List.isPrefixOf_iff_prefix.mp hpre) with ⟨hbc, -⟩
      exact hcb hbc.symm

theorem pyReplaceAux_bb_not_pre (b : Char) (fuel : Nat) (m : Str)
    (h : ¬ [b, b] <+: m) : ¬ [b, b] <+: pyReplaceAux [b, b, b] fuel m := by
  cases m with
  | nil => cases fuel <;> simp [pyReplaceAux]
  | cons c rest =>
    cases fuel with
    | zero => simpa [pyReplaceAux] using h
    | succ n =>
      by_cases hcb : c = b
      · subst hcb
        have hone : ¬ [c] <+: rest := by
          intro h1
          exact h (List.cons_prefix_cons.mpr ⟨rfl, h1⟩)
        rw [pyReplaceAux, if_neg]
        · intro hbb
          rcases List.cons_prefix_cons.mp hbb with ⟨-, h1⟩
          rw [single_prefix_iff_head] at h1
          cases rest with
          | nil => simp [pyReplaceAux] at h1
          | cons d r' =>
            have hd : d ≠ c := by
              intro hdc
              exact hone (by rw [hdc, single_prefix_iff_head]; rfl)
            rw [pyReplaceAux_head_ne hd] at h1
            exact hd (Option.some.inj h1)
        · rintro ⟨-, hpre⟩
          have h2 : [c, c] <+: rest :=
            (List.cons_prefix_cons.mp (List.isPrefixOf_iff_prefix.mp hpre)).2
          obtain ⟨u, hu⟩ := h2
          exact hone ⟨c :: u, by rw [← hu]; rfl⟩
      · rw [pyReplaceAux, if_neg]
        · intro hbb
          rcases List.cons_prefix_cons.mp hbb with ⟨hbc, -⟩
          exact hcb hbc.symm
        · rintro ⟨-, hpre⟩
          rcases List.cons_prefix_cons.mp (List.isPrefixOf_iff_prefix.mp hpre) with ⟨hbc, -⟩
          exact hcb hbc.symm

/-- `replace(t, "")` for a pattern of three equal characters leaves no
occurrence of that pattern behind (runs of the character shrink modulo 3 and
deletions cannot splice a new run of 3 together). -/
theorem pyReplaceAux_bbb_no_occur (b : Char) :
    ∀ fuel l, l.length ≤ fuel → ¬ [b, b, b] <:+: pyReplaceAux [b, b, b] fuel l := by
  intro fuel
  induction fuel with
  | zero =>
    intro l hl
    have hnil : l = [] := List.eq_nil_of_length_eq_zero (Nat.le_zero.mp hl)
    subst hnil
    simp [pyReplaceAux]
  | succ n ih =>
    intro l hl
    cases l with
    | nil => simp [pyReplaceAux]
    | cons c rest =>
      have hrl : rest.length ≤ n := by simpa using hl
      by_cases hpre : [b, b, b].isPrefixOf (c :: rest) = true
      · rw [pyReplaceAux, if_pos ⟨by simp, hpre⟩]
        apply ih
        have h3 : ([b, b, b] : Str).length - 1 = 2 := rfl
        rw [h3, List.length_drop]
        omega
      · rw [pyReplaceAux, if_neg (fun hand => hpre hand.2)]
        intro hinf
        rcases List.infix_cons_iff.mp hinf with hc | hc
        · rcases List.cons_prefix_cons.mp hc with ⟨hbc, hbb⟩
          subst hbc
          have hnb : ¬ [b, b] <+: rest := by
            intro hp2
            exact hpre (List.isPrefixOf_iff_prefix.mpr
              (List.cons_prefix_cons.mpr ⟨rfl, hp2⟩))
          exact pyReplaceAux_bb_not_pre b n rest hnb hbb
        · exact ih rest hrl hc

theorem bq3_eq_triple : bq3 = [btick, btick, btick] := by decide

theorem pyReplace_bq3_no_occur (l : Str) : ¬ bq3 <:+: pyReplace bq3 l := by
  rw [pyReplace, bq3_eq_triple]
  exact pyReplaceAux_bbb_no_occur btick l.length l (Nat.le_refl _)

theorem pyReplace_no_occur {pat l : Str} (h : ¬ pat <:+: l) : pyReplace pat l = l :=
  pyReplaceAux_no_occur l.length l h

/-! ### Lowercasing and whitespace -/

theorem pyLower_append (a c : Str) : pyLower (a ++ c) = pyLower a ++ pyLower c :=
  List.map_append _ a c

theorem pyLower_drop (l : Str) (i : Nat) : pyLower (l.drop i) = (pyLower l).drop i :=
  List.map_drop _ l i

theorem toLower_of_ws {c : Char} (h : c.isWhitespace = true) : c.toLower = c := by
  simp only [Char.isWhitespace, Bool.or_eq_true, decide_eq_true_eq] at h
  rcases h with ((h | h) | h) | h <;> subst h <;> decide

theorem not_ws_of_toLower {c x : Char} (h : c.toLower = x) (hx : x.isWhitespace = false) :
    c.isWhitespace = false := by
  cases hws : c.isWhitespace with
  | false => rfl
  | true =>
    have hc : c.toLower = c := toLower_of_ws hws
    rw [h] at hc
    rw [hc] at hx
    rw [hws] at hx
    exact Bool.noConfusion hx

theorem pyLower_infix_mono {l₁ l₂ : Str} (h : l₁ <:+: l₂) : pyLower l₁ <:+: pyLower l₂ :=
  List.IsInfix.map Char.toLower h

/-! ### A cleaned candidate that contains `select` starts with it -/

theorem pyStripLeft_keeps_sel {w : Str} (h : sel <+: pyLower w) : pyStripLeft w = w := by
  apply pyStripLeft_eq_self
  intro c hc
  have hl : (pyLower w).head? = some c.toLower := by
    cases w with
    | nil => cases hc
    | cons a t =>
      have ha : a = c := by simpa using hc
      subst ha
      rfl
  have hs : (pyLower w).head? = some 's' := prefix_head?_some h rfl
  rw [hl] at hs
  exact not_ws_of_toLower (Option.some.inj hs) (by decide)

theorem pyStripRight_keeps_sel {w : Str} (h : sel <+: pyLower w) :
    sel <+: pyLower (pyStripRight w) := by
  have htake : pyLower (w.take 6) = sel := by
    have hts := List.prefix_iff_eq_take.mp h
    have hmap : pyLower (w.take 6) = (pyLower w).take 6 := List.map_take _ _ _
    have hsl : sel.length = 6 := rfl
    rw [hsl] at hts
    rw [hmap]
    exact hts.symm
  have hlast : ∀ c, (w.take 6).getLast? = some c → c.isWhitespace = false := by
    intro c hc
    have h1 : (pyLower (w.take 6)).getLast? = some 't' := by rw [htake]; rfl
    rw [pyLower, List.getLast?_map, hc] at h1
    simp only [Option.map_some'] at h1
    exact not_ws_of_toLower (Option.some.inj h1) (by decide)
  have hsplit : w.take 6 ++ w.drop 6 = w := List.take_append_drop 6 w
  rw [← hsplit]
  show sel <+: pyLower (pyStripRight (w.take 6 ++ w.drop 6))
  unfold pyStripRight
  rw [List.reverse_append, List.dropWhile_append]
  by_cases he : ((w.drop 6).reverse.dropWhile Char.isWhitespace).isEmpty
  · rw [if_pos he]
    show sel <+: pyLower (pyStripRight (w.take 6))
    rw [pyStripRight_eq_self hlast, htake]
  · rw [if_neg he, List.reverse_append, List.reverse_reverse]
    rw [pyLower_append, htake]
    exact List.prefix_append _ _

theorem semiStep_keeps_sel {w : Str} (h : sel <+: pyLower w) :
    sel <+: pyLower (semiStep w) := by
  unfold semiStep
  split
  · rename_i hw
    have hlen : 6 ≤ w.length := by
      have hle := h.length_le
      simpa [pyLower, sel] using hle
    by_cases h6 : w.length = 6
    · exfalso
      have heq : sel = pyLower w := h.eq_of_length (by simp [pyLower, sel, h6])
      have hl : (pyLower w).getLast? = some ';' := by
        rw [pyLower, List.getLast?_map, hw]; rfl
      rw [← heq] at hl
      exact absurd hl (by decide)
    · rw [List.prefix_iff_eq_take] at h ⊢
      rw [pyLower] at h
      rw [pyLower, List.map_dropLast, List.dropLast_eq_take, List.take_take]
      have hmin : min sel.length ((List.map Char.toLower w).length - 1) = sel.length := by
        have h1 : sel.length = 6 := rfl
        rw [h1, List.length_map]
        omega
      rw [hmin]
      exact h
  · exact h

theorem pyStrip_keeps_sel {w : Str} (h : sel <+: pyLower w) :
    sel <+: pyLower (pyStrip w) := by
  show sel <+: pyLower (pyStripRight (pyStripLeft w))
  rw [pyStripLeft_keeps_sel h]
  exact pyStripRight_keeps_sel h

/-! ### Structural facts about `clean_sql` output -/

theorem selStep_suffix_self (t : Str) : selStep t <:+ t := by
  unfold selStep
  split
  · exact List.drop_suffix _ t
  · exact List.suffix_rfl

theorem semiStep_prefix_self (t : Str) : semiStep t <+: t := by
  unfold semiStep
  split
  · exact List.dropLast_prefix t
  · exact List.prefix_rfl

theorem clean_sql_infix_chain (s : Str) (hs : s ≠ []) :
    clean_sql s <:+: pyReplace bq3 (fenceStep (pyStrip s)) := by
  rw [clean_sql, if_neg hs]
  refine (pyStrip_infix_self _).trans (((semiStep_prefix_self _).isInfix).trans ?_)
  exact ((selStep_suffix_self _).isInfix).trans (pyStrip_infix_self _)

theorem clean_sql_no_bq3 (s : Str) : ¬ bq3 <:+: clean_sql s := by
  by_cases hs : s = []
  · subst hs
    intro h
    exact absurd (List.infix_nil.mp h) (by decide)
  · intro h
    exact pyReplace_bq3_no_occur (fenceStep (pyStrip s)) (h.trans (clean_sql_infix_chain s hs))

theorem clean_sql_sel_dichotomy (s : Str) :
    sel <+: pyLower (clean_sql s) ∨ ¬ sel <:+: pyLower (clean_sql s) := by
  by_cases hs : s = []
  · right
    subst hs
    intro h
    exact absurd (List.infix_nil.mp h) (by decide)
  · rw [clean_sql, if_neg hs]
    cases hf : pyFind sel (pyLower (pyStrip (pyReplace bq3 (fenceStep (pyStrip s))))) with
    | some i =>
      left
      have h1 := pyFind_some_drop hf
      rw [← pyLower_drop] at h1
      have h2 : selStep (pyStrip (pyReplace bq3 (fenceStep (pyStrip s))))
          = (pyStrip (pyReplace bq3 (fenceStep (pyStrip s)))).drop i := by
        unfold selStep; rw [hf]
      rw [h2]
      exact pyStrip_keeps_sel (semiStep_keeps_sel h1)
    | none =>
      right
      have h1 := not_infix_of_pyFind_none hf
      have h2 : selStep (pyStrip (pyReplace bq3 (fenceStep (pyStrip s))))
          = pyStrip (pyReplace bq3 (fenceStep (pyStrip s))) := by
        unfold selStep; rw [hf]
      rw [h2]
      intro h
      apply h1
      refine h.trans (pyLower_infix_mono ?_)
      exact (pyStrip_infix_self _).trans (semiStep_prefix_self _).isInfix

theorem clean_sql_stripped (s : Str) : pyStrip (clean_sql s) = clean_sql s := by
  by_cases hs : s = []
  · subst hs; rfl
  · rw [clean_sql, if_neg hs, pyStrip_idem]

/-- A cleaned text that contains `select` (case-insensitively) starts with
it: this is the load-bearing consequence of the truncate-at-`select` step. -/
theorem clean_sql_sel_prefix_of_infix_sel {s : Str}
    (h : sel <:+: pyLower (clean_sql s)) : sel <+: pyLower (clean_sql s) := by
  rcases clean_sql_sel_dichotomy s with hd | hd
  · exact hd
  · exact absurd h hd

/-- Cleaning a cleaned text changes nothing, provided the cleaned text does
not still end with a semicolon. -/
theorem clean_sql_fixed_point (s : Str) (h : ¬ (clean_sql s).getLast? = some ';') :
    clean_sql (clean_sql s) = clean_sql s := by
  by_cases hne : clean_sql s = []
  · rw [hne]; rfl
  · have hst : pyStrip (clean_sql s) = clean_sql s := clean_sql_stripped s
    have hnb : ¬ bq3 <:+: clean_sql s := clean_sql_no_bq3 s
    have hfence : fenceStep (clean_sql s) = clean_sql s := by
      rw [fenceStep, if_neg]
      intro hp
      exact hnb (List.isPrefixOf_iff_prefix.mp hp).isInfix
    have hrep : pyReplace bq3 (clean_sql s) = clean_sql s := pyReplace_no_occur hnb
    have hsel : selStep (clean_sql s) = clean_sql s := by
      rcases clean_sql_sel_dichotomy s with hd | hd
      · unfold selStep
        rw [pyFind_prefix_zero hd]
        simp
      · unfold selStep
        cases hf : pyFind sel (pyLower (clean_sql s)) with
        | none => rfl
        | some i =>
          exfalso
          apply hd
          have h1 := (pyFind_some_drop hf).isInfix
          exact h1.trans (List.drop_suffix i _).isInfix
    have hsemi : semiStep (clean_sql s) = clean_sql s := by
      rw [semiStep, if_neg h]
    rw [clean_sql, if_neg hne, hst, hfence, hrep, hst, hsel, hsemi, hst]

/-! ### The generation and repair layers produce SELECT-leading candidates -/

theorem call_llm_extract_sql_eq (content : Str) :
    call_llm_extract_sql (some content)
      = if content = [] then none else some (clean_sql content) := rfl

theorem call_llm_extract_sql_some {raw : Option Str} {s : Str}
    (h : call_llm_extract_sql raw = some s) : ∃ content, s = clean_sql content := by
  cases raw with
  | none => cases h
  | some content =>
    rw [call_llm_extract_sql_eq] at h
    split at h
    · cases h
    · exact ⟨content, (Option.some.inj h).symm⟩

theorem generate_sql_keeps_sel {raw : Option Str} {mode : Bool} {s : Str}
    (h : generate_sql_with_llm raw mode = some s) : sel <+: pyLower s := by
  unfold generate_sql_with_llm at h
  cases hr : (if mode then raw else call_llm_extract_sql raw) with
  | none => rw [hr] at h; cases h
  | some raw2 =>
    rw [hr] at h
    dsimp only at h
    split at h
    · cases h
    · split at h
      · rename_i hin
        obtain rfl : clean_sql raw2 = s := Option.some.inj h
        exact clean_sql_sel_prefix_of_infix_sel (pyIn_iff.mp hin)
      · cases h

theorem fix_sql_keeps_sel (raw : Option Str) {broken : Str}
    (h : sel <+: pyLower broken) : sel <+: pyLower (fix_sql_with_llm raw broken) := by
  unfold fix_sql_with_llm
  cases he : call_llm_extract_sql raw with
  | none => exact h
  | some s =>
    dsimp only
    split
    · exact h
    · rename_i hcond
      obtain ⟨content, rfl⟩ := call_llm_extract_sql_some he
      apply pyStrip_keeps_sel
      apply clean_sql_sel_prefix_of_infix_sel
      apply pyIn_iff.mp
      simp only [Bool.or_eq_true, Bool.not_eq_true', decide_eq_true_eq, not_or,
        Bool.not_eq_false] at hcond
      exact hcond.2

/-- When the repair layer cannot obtain a usable candidate (backend failure,
empty content, or cleaned text without `select`), it returns the broken SQL
unchanged. -/
theorem fix_sql_failure (raw : Option Str) (broken : Str)
    (h : raw = none ∨ raw = some [] ∨
      ∀ content, raw = some content → pyIn sel (pyLower (clean_sql content)) = false) :
    fix_sql_with_llm raw broken = broken := by
  rcases h with rfl | rfl | h
  · rfl
  · rfl
  · cases raw with
    | none => rfl
    | some content =>
      unfold fix_sql_with_llm
      by_cases hc : content = []
      · rw [call_llm_extract_sql_eq, if_pos hc]
      · rw [call_llm_extract_sql_eq, if_neg hc]
        dsimp only
        rw [h content rfl]
        simp

theorem sel_prefix_concat {a rest : Str} (ha : sel <+: pyLower a) :
    sel <+: pyLower (a ++ rest) := by
  rw [pyLower_append]
  exact ha.trans (List.prefix_append _ _)

theorem pyStripLeft_append_concrete {a b : Str} (rest : Str)
    (hab : List.dropWhile Char.isWhitespace a = b) (hb : b.isEmpty = false) :
    pyStripLeft (a ++ rest) = b ++ rest := by
  unfold pyStripLeft
  rw [List.dropWhile_append, hab, hb]
  simp

theorem build_sql_from_intent_sel (intent : QueryIntent) (table : Str) :
    sel <+: pyLower (build_sql_from_intent intent table) := by
  unfold build_sql_from_intent
  have hplain : ∀ rest : Str, sel <+: pyLower (pyStrip ("\n        SELECT ".toList ++ rest)) := by
    intro rest
    show sel <+: pyLower (pyStripRight (pyStripLeft _))
    rw [pyStripLeft_append_concrete (b := "SELECT ".toList) rest (by decide) (by decide)]
    exact pyStripRight_keeps_sel (sel_prefix_concat (by decide))
  have hgroup : ∀ rest : Str,
      sel <+: pyLower (pyStrip ("\n            SELECT ".toList ++ rest)) := by
    intro rest
    show sel <+: pyLower (pyStripRight (pyStripLeft _))
    rw [pyStripLeft_append_concrete (b := "SELECT ".toList) rest (by decide) (by decide)]
    exact pyStripRight_keeps_sel (sel_prefix_concat (by decide))
  dsimp only
  split
  · split
    · simpa using hplain _
    · simpa using hgroup _
  · simpa using hplain _

theorem question_to_sql_sel (sim : Str → Str → ℚ) (question : Str)
    (sc : Schema) (table : Str) :
    sel <+: pyLower (question_to_sql sim question sc table) := by
  unfold question_to_sql
  dsimp only
  split
  · rw [List.append_assoc]
    exact sel_prefix_concat (by decide)
  · split
    · rw [List.append_assoc]
      exact sel_prefix_concat (by decide)
    · exact build_sql_from_intent_sel _ _

/-! ## Lemmas about the orchestrator -/

theorem initialCandidate_sel {α : Type} {env : Env α} {sql : Str}
    (h : initialCandidate env = some sql) : sel <+: pyLower sql := by
  unfold initialCandidate at h
  dsimp only at h
  cases hg : (if pyStrip env.ragContext ≠ [] then generate_sql_with_llm env.genRaw false
      else generate_sql_with_llm env.genRaw true) with
  | none => rw [hg] at h; cases h
  | some s =>
    rw [hg] at h
    dsimp only at h
    split at h
    · cases h
    · obtain rfl : s = sql := Option.some.inj h
      by_cases hm : pyStrip env.ragContext ≠ []
      · rw [if_pos hm] at hg; exact generate_sql_keeps_sel hg
      · rw [if_neg hm] at hg; exact generate_sql_keeps_sel hg

theorem correctionLoop_ok {α : Type} (env : Env α) :
    ∀ fuel i sql s df, (correctionLoop env fuel i sql).1 = some (s, df) →
      env.exec s = Except.ok df := by
  intro fuel
  induction fuel with
  | zero => intro i sql s df h; cases h
  | succ n ih =>
    intro i sql s df h
    rw [correctionLoop] at h
    cases hx : env.exec sql with
    | ok d =>
      rw [hx] at h
      dsimp only at h
      obtain ⟨rfl, rfl⟩ : sql = s ∧ d = df := by
        have h2 := Option.some.inj h
        exact ⟨congrArg Prod.fst h2, congrArg Prod.snd h2⟩
      exact hx
    | error e =>
      rw [hx] at h
      dsimp only at h
      split at h
      · cases h
      · exact ih (i + 1) _ s df h

theorem correctionLoop_none_all_err {α : Type} (env : Env α) :
    ∀ fuel i sql, (correctionLoop env fuel i sql).1 = none →
      ∀ x ∈ (correctionLoop env fuel i sql).2, ∃ e, env.exec x = Except.error e := by
  intro fuel
  induction fuel with
  | zero => intro i sql _ x hx; cases hx
  | succ n ih =>
    intro i sql h x hx
    rw [correctionLoop] at h hx
    cases hex : env.exec sql with
    | ok d => rw [hex] at h; cases h
    | error e =>
      rw [hex] at h hx
      dsimp only at h hx
      split at h
      · rename_i hcond
        rw [if_pos hcond] at hx
        simp only [List.mem_singleton] at hx
        subst hx
        exact ⟨e, hex⟩
      · rename_i hcond
        rw [if_neg hcond] at hx
        simp only [List.mem_cons] at hx
        rcases hx with rfl | hx
        · exact ⟨e, hex⟩
        · exact ih (i + 1) _ h x hx

theorem correctionLoop_trace_sel {α : Type} (env : Env α) :
    ∀ fuel i sql, sel <+: pyLower sql →
      ∀ x ∈ (correctionLoop env fuel i sql).2, sel <+: pyLower x := by
  intro fuel
  induction fuel with
  | zero => intro i sql _ x hx; cases hx
  | succ n ih =>
    intro i sql hsql x hx
    rw [correctionLoop] at hx
    cases hex : env.exec sql with
    | ok d =>
      rw [hex] at hx
      simp only [List.mem_singleton] at hx
      subst hx
      exact hsql
    | error e =>
      rw [hex] at hx
      dsimp only at hx
      split at hx
      · simp only [List.mem_singleton] at hx
        subst hx
        exact hsql
      · simp only [List.mem_cons] at hx
        rcases hx with rfl | hx
        · exact hsql
        · exact ih (i + 1) _ (fix_sql_keeps_sel _ hsql) x hx

theorem correctionLoop_none_of_all_err {α : Type} (env : Env α)
    (hall : ∀ s df, env.exec s ≠ Except.ok df) :
    ∀ fuel i sql, (correctionLoop env fuel i sql).1 = none := by
  intro fuel
  induction fuel with
  | zero => intro i sql; rfl
  | succ n ih =>
    intro i sql
    rw [correctionLoop]
    cases hex : env.exec sql with
    | ok d => exact absurd hex (hall sql d)
    | error e =>
      dsimp only
      split
      · rfl
      · exact ih (i + 1) _

theorem correctionLoop_fixRaw_ext {α : Type} (env env' : Env α)
    (hexec : env.exec = env'.exec) :
    ∀ fuel i sql, (∀ j, i ≤ j → j < i + fuel → env.fixRaw j = env'.fixRaw j) →
      correctionLoop env fuel i sql = correctionLoop env' fuel i sql := by
  intro fuel
  induction fuel with
  | zero => intro i sql _; rfl
  | succ n ih =>
    intro i sql hfr
    rw [correctionLoop, correctionLoop, ← hexec]
    cases hex : env.exec sql with
    | ok d => rfl
    | error e =>
      dsimp only
      rw [hfr i (Nat.le_refl i) (by omega)]
      split
      · rfl
      · rw [ih (i + 1) _ (fun j hj1 hj2 => hfr j (by omega) (by omega))]

theorem runFallback_fst {α : Type} (sim : Str → Str → ℚ) (env : Env α) (q : Str) (sc : Schema) :
    (runFallback sim env q sc).1.1 = question_to_sql sim q sc "data".toList := by
  unfold runFallback
  dsimp only
  split <;> rfl

theorem runFallback_trace {α : Type} (sim : Str → Str → ℚ) (env : Env α) (q : Str) (sc : Schema) :
    (runFallback sim env q sc).2 = [question_to_sql sim q sc "data".toList] := by
  unfold runFallback
  dsimp only
  split <;> rfl

theorem runFallback_ok {α : Type} (sim : Str → Str → ℚ) (env : Env α) (q : Str) (sc : Schema)
    {df : α} (h : (runFallback sim env q sc).1.2 = Except.ok df) :
    env.exec (question_to_sql sim q sc "data".toList) = Except.ok df := by
  unfold runFallback at h
  dsimp only at h
  cases hex : env.exec (question_to_sql sim q sc "data".toList) with
  | ok d =>
    rw [hex] at h
    dsimp only at h
    exact h
  | error e0 =>
    rw [hex] at h
    dsimp only at h
    cases h

theorem runFallback_err {α : Type} (sim : Str → Str → ℚ) (env : Env α) (q : Str) (sc : Schema)
    {e : Str} (h : (runFallback sim env q sc).1.2 = Except.error e) :
    ∃ e0, env.exec (question_to_sql sim q sc "data".toList) = Except.error e0 ∧
      e = "SQL Error in fallback: ".toList ++ e0 := by
  unfold runFallback at h
  dsimp only at h
  cases hex : env.exec (question_to_sql sim q sc "data".toList) with
  | ok d =>
    rw [hex] at h
    dsimp only at h
    cases h
  | error e0 =>
    rw [hex] at h
    dsimp only at h
    exact ⟨e0, rfl, (Except.error.inj h).symm⟩

theorem runFallback_of_exec_ok {α : Type} (sim : Str → Str → ℚ) (env : Env α) (q : Str)
    (sc : Schema) {df : α}
    (h : env.exec (question_to_sql sim q sc "data".toList) = Except.ok df) :
    (runFallback sim env q sc).1.2 = Except.ok df := by
  unfold runFallback
  dsimp only
  rw [h]

theorem runFallback_of_exec_err {α : Type} (sim : Str → Str → ℚ) (env : Env α) (q : Str)
    (sc : Schema) {e : Str}
    (h : env.exec (question_to_sql sim q sc "data".toList) = Except.error e) :
    (runFallback sim env q sc).1.2
      = Except.error ("SQL Error in fallback: ".toList ++ e) := by
  unfold runFallback
  dsimp only
  rw [h]

/-- **C1**: the Query Orchestrator always returns a `(sql_text, outcome)`
pair whose outcome is (by type) either a row-set or an error string; a
successful outcome is the result of executing the returned SQL; an error
outcome arises only from the final fallback attempt — the returned SQL is
then exactly the rule-based fallback SQL, the error string is the
fallback's own execution error prefixed by `"SQL Error in fallback: "`,
and every SQL submitted along the way failed. -/
theorem c1_orchestrator_pair_invariant {α : Type} (sim : Str → Str → ℚ) (env : Env α)
    (q : Str) (sc : Schema) (hist : Option Str) :
    (∀ df, (run_sql_with_correction sim env q sc hist).1.2 = Except.ok df →
      env.exec (run_sql_with_correction sim env q sc hist).1.1 = Except.ok df) ∧
    (∀ e, (run_sql_with_correction sim env q sc hist).1.2 = Except.error e →
      (run_sql_with_correction sim env q sc hist).1.1
          = question_to_sql sim q sc "data".toList ∧
      ∃ e0, env.exec (question_to_sql sim q sc "data".toList) = Except.error e0 ∧
        e = "SQL Error in fallback: ".toList ++ e0) ∧
    (∀ e, (run_sql_with_correction sim env q sc hist).1.2 = Except.error e →
      ∀ x ∈ (run_sql_with_correction sim env q sc hist).2,
        ∃ e1, env.exec x = Except.error e1) := by
  cases hic : initialCandidate env with
  | none =>
    have hrun : run_sql_with_correction sim env q sc hist = runFallback sim env q sc := by
      unfold run_sql_with_correction
      rw [hic]
    rw [hrun]
    refine ⟨?_, ?_, ?_⟩
    · intro df h
      rw [runFallback_fst]
      exact runFallback_ok sim env q sc h
    · intro e h
      exact ⟨runFallback_fst sim env q sc, runFallback_err sim env q sc h⟩
    · intro e h x hx
      rw [runFallback_trace] at hx
      simp only [List.mem_singleton] at hx
      subst hx
      rcases runFallback_err sim env q sc h with ⟨e0, hex, -⟩
      exact ⟨e0, hex⟩
  | some sql =>
    rcases hcl : correctionLoop env MAX_RETRIES 0 sql with ⟨o, tr⟩
    cases o with
    | some p =>
      rcases p with ⟨s, df⟩
      have hrun : run_sql_with_correction sim env q sc hist = ((s, Except.ok df), tr) := by
        unfold run_sql_with_correction
        rw [hic]
        dsimp only
        rw [hcl]
      rw [hrun]
      refine ⟨?_, ?_, ?_⟩
      · intro df' h
        obtain rfl : df = df' := Except.ok.inj h
        exact correctionLoop_ok env MAX_RETRIES 0 sql s df (by rw [hcl])
      · intro e h
        cases h
      · intro e h
        cases h
    | none =>
      have hrun : run_sql_with_correction sim env q sc hist
          = ((runFallback sim env q sc).1, tr ++ (runFallback sim env q sc).2) := by
        unfold run_sql_with_correction
        rw [hic]
        dsimp only
        rw [hcl]
      rw [hrun]
      refine ⟨?_, ?_, ?_⟩
      · intro df h
        dsimp only at h ⊢
        rw [runFallback_fst]
        exact runFallback_ok sim env q sc h
      · intro e h
        dsimp only at h ⊢
        exact ⟨runFallback_fst sim env q sc, runFallback_err sim env q sc h⟩
      · intro e h x hx
        dsimp only at h hx
        rw [List.mem_append] at hx
        rcases hx with hx | hx
        · refine correctionLoop_none_all_err env MAX_RETRIES 0 sql ?_ x ?_
          · rw [hcl]
          · rw [hcl]
            exact hx
        · rw [runFallback_trace] at hx
          simp only [List.mem_singleton] at hx
          subst hx
          rcases runFallback_err sim env q sc h with ⟨e0, hex, -⟩
          exact ⟨e0, hex⟩

/-- Witness for **C1** at a concrete environment: the orchestrator's error
outcome is paired with exactly the rule-based fallback SQL. -/
theorem c1_witness :
    (run_sql_with_correction (fun _ _ => 0) c1Env "count rows".toList {} none).1.1
      = question_to_sql (fun _ _ => 0) "count rows".toList {} "data".toList :=
  ((c1_orchestrator_pair_invariant (fun _ _ => 0) c1Env "count rows".toList {} none).2.1
    "SQL Error in fallback: no such table: data".toList (by rfl)).1

/-- **C3**: the orchestrator consults the repair oracle for at most the
first `MAX_RETRIES = 3` attempts — its behaviour is unchanged by any change
to the repair responses from attempt index 3 on — and once the initial
generative candidate exists but the bounded execute/repair chain ends with
no successful execution (`(correctionLoop …).1 = none`; by
`correctionLoop_ok` a `some` result is precisely a successful execution),
it builds the rule-based fallback SQL, executes that, and returns the
fallback SQL text — discarding all generative SQL — paired with the
fallback's own rows when the fallback succeeds, or with the fallback's own
prefixed error when it fails. -/
theorem c3_bounded_retries_then_fallback {α : Type} (sim : Str → Str → ℚ) (env : Env α)
    (f f' : Nat → Option Str) (q : Str) (sc : Schema) (hist : Option Str) :
    ((∀ j, j < MAX_RETRIES → f j = f' j) →
      run_sql_with_correction sim { env with fixRaw := f } q sc hist
        = run_sql_with_correction sim { env with fixRaw := f' } q sc hist) ∧
    (∀ sql, initialCandidate env = some sql →
      (correctionLoop env MAX_RETRIES 0 sql).1 = none →
      (run_sql_with_correction sim env q sc hist).1.1
          = question_to_sql sim q sc "data".toList ∧
      (∀ df, env.exec (question_to_sql sim q sc "data".toList) = Except.ok df →
        (run_sql_with_correction sim env q sc hist).1.2 = Except.ok df) ∧
      (∀ e, env.exec (question_to_sql sim q sc "data".toList) = Except.error e →
        (run_sql_with_correction sim env q sc hist).1.2
          = Except.error ("SQL Error in fallback: ".toList ++ e))) := by
  constructor
  · intro h
    have hfb : runFallback sim { env with fixRaw := f } q sc
        = runFallback sim { env with fixRaw := f' } q sc := rfl
    have hic : initialCandidate { env with fixRaw := f }
        = initialCandidate { env with fixRaw := f' } := rfl
    cases hi : initialCandidate { env with fixRaw := f } with
    | none =>
      have hi' : initialCandidate { env with fixRaw := f' } = none := hic.symm.trans hi
      unfold run_sql_with_correction
      rw [hi, hi']
      dsimp only
      exact hfb
    | some sql =>
      have hi' : initialCandidate { env with fixRaw := f' } = some sql := hic.symm.trans hi
      have hloop : correctionLoop { env with fixRaw := f } MAX_RETRIES 0 sql
          = correctionLoop { env with fixRaw := f' } MAX_RETRIES 0 sql :=
        correctionLoop_fixRaw_ext { env with fixRaw := f } { env with fixRaw := f' }
          rfl MAX_RETRIES 0 sql (fun j _ hj2 => h j (by simpa using hj2))
      unfold run_sql_with_correction
      rw [hi, hi']
      dsimp only
      rw [hloop, hfb]
  · intro sql hi hnone
    rcases hcl : correctionLoop env MAX_RETRIES 0 sql with ⟨o, tr⟩
    rw [hcl] at hnone
    dsimp only at hnone
    subst hnone
    have hrun : run_sql_with_correction sim env q sc hist
        = ((runFallback sim env q sc).1, tr ++ (runFallback sim env q sc).2) := by
      unfold run_sql_with_correction
      rw [hi]
      dsimp only
      rw [hcl]
    rw [hrun]
    refine ⟨runFallback_fst sim env q sc, ?_, ?_⟩
    · intro df hdf
      exact runFallback_of_exec_ok sim env q sc hdf
    · intro e he
      exact runFallback_of_exec_err sim env q sc he

/-- Witness for **C3**: changing the repair oracle from attempt index 3 on
does not change the run; and in `c3Env` — where the generative candidate
keeps failing but the fallback query itself succeeds — the exhausted run
returns the fallback SQL text together with the fallback's own rows. -/
theorem c3_witness :
    (run_sql_with_correction (fun _ _ => 0) { c3Env with fixRaw := fun _ => none }
        "count x".toList {} none
      = run_sql_with_correction (fun _ _ => 0)
          { c3Env with fixRaw := fun i =>
              if i < 3 then none else some "SELECT b FROM data".toList }
          "count x".toList {} none) ∧
    (run_sql_with_correction (fun _ _ => 0) c3Env "count x".toList {} none).1.1
      = question_to_sql (fun _ _ => 0) "count x".toList {} "data".toList ∧
    (run_sql_with_correction (fun _ _ => 0) c3Env "count x".toList {} none).1.2
      = Except.ok () := by
  refine ⟨?_, ?_, ?_⟩
  · exact (c3_bounded_retries_then_fallback (fun _ _ => 0) c3Env _ _ "count x".toList {} none).1
      (fun j hj => by simp [MAX_RETRIES] at hj; simp [hj])
  · exact ((c3_bounded_retries_then_fallback (fun _ _ => 0) c3Env
      (fun _ => none) (fun _ => none) "count x".toList {} none).2
      "SELECT a FROM data".toList (by decide) (by decide)).1
  · exact ((c3_bounded_retries_then_fallback (fun _ _ => 0) c3Env
      (fun _ => none) (fun _ => none) "count x".toList {} none).2
      "SELECT a FROM data".toList (by decide) (by decide)).2.1 () (by rfl)

/-- **C2** counterexample: the claim says any statement that is not a single
read-only query is rejected before being executed against the dataset
store.  In fact the only guard is the presence of the substring `select`:
the candidate `"select 1; DROP TABLE data"` — one SELECT followed by a
destructive statement, hence not a single read-only query — is submitted to
the store for execution (it occurs in the execution trace). -/
theorem c2_counterexample :
    "select 1; DROP TABLE data".toList
        ∈ (run_sql_with_correction (fun _ _ => 0) c2Env "q".toList {} none).2
      ∧ pyIn "drop table".toList
          (pyLower "select 1; DROP TABLE data".toList) = true := by
  constructor
  · decide
  · decide

/-- **C2** (amended): every SQL candidate the orchestrator submits for
execution begins, case-insensitively, with `SELECT` (cleanup has already
been applied to every generative candidate); but no further read-only check
is made, so a leading SELECT followed by further statements is not
rejected. -/
theorem c2_amended_candidates_start_with_select {α : Type} (sim : Str → Str → ℚ)
    (env : Env α) (q : Str) (sc : Schema) (hist : Option Str) :
    ∀ x ∈ (run_sql_with_correction sim env q sc hist).2, sel <+: pyLower x := by
  intro x hx
  cases hic : initialCandidate env with
  | none =>
    have hrun : run_sql_with_correction sim env q sc hist = runFallback sim env q sc := by
      unfold run_sql_with_correction
      rw [hic]
    rw [hrun, runFallback_trace] at hx
    simp only [List.mem_singleton] at hx
    subst hx
    exact question_to_sql_sel sim q sc "data".toList
  | some sql =>
    have hsel : sel <+: pyLower sql := initialCandidate_sel hic
    rcases hcl : correctionLoop env MAX_RETRIES 0 sql with ⟨o, tr⟩
    have htr : ∀ y ∈ tr, sel <+: pyLower y := by
      intro y hy
      refine correctionLoop_trace_sel env MAX_RETRIES 0 sql hsel y ?_
      rw [hcl]
      exact hy
    cases o with
    | some p =>
      rcases p with ⟨s, df⟩
      have hrun : run_sql_with_correction sim env q sc hist = ((s, Except.ok df), tr) := by
        unfold run_sql_with_correction
        rw [hic]
        dsimp only
        rw [hcl]
      rw [hrun] at hx
      exact htr x hx
    | none =>
      have hrun : run_sql_with_correction sim env q sc hist
          = ((runFallback sim env q sc).1, tr ++ (runFallback sim env q sc).2) := by
        unfold run_sql_with_correction
        rw [hic]
        dsimp only
        rw [hcl]
      rw [hrun] at hx
      dsimp only at hx
      rw [List.mem_append] at hx
      rcases hx with hx | hx
      · exact htr x hx
      · rw [runFallback_trace] at hx
        simp only [List.mem_singleton] at hx
        subst hx
        exact question_to_sql_sel sim q sc "data".toList

/-- Witness for the amended **C2**: the multi-statement candidate submitted
in `c2Env` does itself start, case-insensitively, with SELECT. -/
theorem c2_witness : sel <+: pyLower "select 1; DROP TABLE data".toList := by
  apply c2_amended_candidates_start_with_select (fun _ _ => 0) c2Env "q".toList {} none
  decide

/-- **C4** counterexample: the claim says a failed repair returns the
"no candidate" sentinel rather than any SQL string.  With the backend
unreachable (`none`), `fix_sql_with_llm` instead returns the broken SQL
string itself, which the orchestrator then re-executes. -/
theorem c4_counterexample :
    fix_sql_with_llm none "SELECT missing_col FROM data".toList
      = "SELECT missing_col FROM data".toList := rfl

/-- **C4** (amended): whenever the repair layer cannot produce a usable
corrected statement (backend unreachable, empty response, or cleaned text
not containing `select`), it returns the original broken SQL string
unchanged — not an absent sentinel — and (being a total function of the
modelled failure modes) never raises. -/
theorem c4_amended_repair_returns_broken_sql (raw : Option Str) (broken : Str)
    (h : raw = none ∨ raw = some [] ∨
      ∀ content, raw = some content → pyIn sel (pyLower (clean_sql content)) = false) :
    fix_sql_with_llm raw broken = broken :=
  fix_sql_failure raw broken h

/-- Witness for the amended **C4** at a backend response with no `select`. -/
theorem c4_witness :
    fix_sql_with_llm (some "I cannot help with that".toList) "SELECT a FROM data".toList
      = "SELECT a FROM data".toList :=
  c4_amended_repair_returns_broken_sql (some "I cannot help with that".toList)
    "SELECT a FROM data".toList
    (Or.inr (Or.inr (fun content hc => by cases hc; decide)))

/-- **C8** counterexample: cleanup is not idempotent.  `clean_sql` strips at
most one trailing semicolon per application, so on `"select 1;;"` the first
pass yields `"select 1;"` and a second pass yields `"select 1"`. -/
theorem c8_counterexample :
    clean_sql (clean_sql "select 1;;".toList) ≠ clean_sql "select 1;;".toList := by
  decide

/-- **C8** (amended): the Generative Drafter's cleanup is idempotent on
every input whose cleaned form does not end with a semicolon; in general a
second application differs exactly by stripping one more trailing `;`. -/
theorem c8_amended_cleanup_idempotent (s : Str)
    (h : ¬ (clean_sql s).getLast? = some ';') :
    clean_sql (clean_sql s) = clean_sql s :=
  clean_sql_fixed_point s h

/-! ## Aggregation-keyword and metric detection (C7, C10) -/

theorem detect_metric_and_agg_snd (sim : Str → Str → ℚ) (q : Str) (ct : Schema) :
    (detect_metric_and_agg sim q ct).2
      = lookupAgg ((findAggKey (pyLower q) AGG_KEYWORDS).getD "count".toList) := rfl

theorem findAggKey_none {q : Str} :
    ∀ kws : List (Str × List Str),
      (∀ p ∈ kws, ∀ w ∈ p.2, pyIn w q = false) → findAggKey q kws = none := by
  intro kws
  induction kws with
  | nil => intro _; rfl
  | cons p rest ih =>
    intro h
    rcases p with ⟨key, words⟩
    rw [findAggKey, if_neg]
    · exact ih (fun p hp => h p (List.mem_cons_of_mem _ hp))
    · intro hany
      rcases List.any_eq_true.mp hany with ⟨w, hw, hwq⟩
      have hf := h (key, words) (List.mem_cons_self _ _) w hw
      rw [hf] at hwq
      exact Bool.noConfusion hwq

theorem findAggKey_first {q k : Str} {ws : List Str} :
    ∀ pre post : List (Str × List Str), (∃ w ∈ ws, pyIn w q = true) →
      (∀ p ∈ pre, ∀ w ∈ p.2, pyIn w q = false) →
      findAggKey q (pre ++ (k, ws) :: post) = some k := by
  intro pre
  induction pre with
  | nil =>
    intro post hex _
    rw [List.nil_append, findAggKey, if_pos]
    exact List.any_eq_true.mpr hex
  | cons p rest ih =>
    intro post hex hpre
    rcases p with ⟨key, words⟩
    rw [List.cons_append, findAggKey, if_neg]
    · exact ih post hex (fun p hp => hpre p (List.mem_cons_of_mem _ hp))
    · intro hany
      rcases List.any_eq_true.mp hany with ⟨w, hw, hwq⟩
      have hf := hpre (key, words) (List.mem_cons_self _ _) w hw
      rw [hf] at hwq
      exact Bool.noConfusion hwq

/-- **C7**: with no recognized aggregation keyword in the lowered question
the Intent Extractor yields COUNT, and otherwise the first matching
aggregation kind in keyword-list iteration order wins (its `AGG_SQL_MAP`
entry is returned). -/
theorem c7_agg_keyword_detection (sim : Str → Str → ℚ) (q : Str) (ct : Schema) :
    ((∀ p ∈ AGG_KEYWORDS, ∀ w ∈ p.2, pyIn w (pyLower q) = false) →
      (detect_metric_and_agg sim q ct).2 = "COUNT".toList) ∧
    (∀ pre post : List (Str × List Str), ∀ k : Str, ∀ ws : List Str,
      AGG_KEYWORDS = pre ++ (k, ws) :: post →
      (∃ w ∈ ws, pyIn w (pyLower q) = true) →
      (∀ p ∈ pre, ∀ w ∈ p.2, pyIn w (pyLower q) = false) →
      (detect_metric_and_agg sim q ct).2 = lookupAgg k) := by
  constructor
  · intro h
    rw [detect_metric_and_agg_snd, findAggKey_none AGG_KEYWORDS h]
    rfl
  · intro pre post k ws heq hex hpre
    rw [detect_metric_and_agg_snd, heq, findAggKey_first pre post hex hpre]
    rfl

/-- Witness for **C7**: "weather today" has no keyword and yields COUNT;
"total and average cost" matches both SUM and AVG keywords but the AVG kind
comes first in iteration order and wins. -/
theorem c7_witness :
    (detect_metric_and_agg (fun _ _ => 0) "weather today".toList {}).2 = "COUNT".toList
      ∧ (detect_metric_and_agg (fun _ _ => 0) "total and average cost".toList {}).2
          = "AVG".toList := by
  constructor
  · exact (c7_agg_keyword_detection (fun _ _ => 0) "weather today".toList {}).1 (by decide)
  · have h := (c7_agg_keyword_detection (fun _ _ => 0) "total and average cost".toList {}).2
      [] [("sum".toList, ["sum".toList, "total".toList]),
          ("count".toList, ["count".toList, "number of".toList, "how many".toList]),
          ("max".toList, ["max".toList, "highest".toList, "largest".toList]),
          ("min".toList, ["min".toList, "lowest".toList, "smallest".toList])]
      "avg".toList ["average".toList, "avg".toList, "mean".toList]
      (by decide) (by decide) (by decide)
    exact h.trans (by decide)

theorem simLoop_const {sim : Str → Str → ℚ} {q_comp : Str} :
    ∀ (cols : List Str) (best : Option Str) (score0 : ℚ),
      (∀ c ∈ cols, sim q_comp (pyReplace " ".toList (pyLower c)) ≤ score0) →
      simLoop sim q_comp cols best score0 = best := by
  intro cols
  induction cols with
  | nil => intro best s _; rfl
  | cons col rest ih =>
    intro best s h
    rw [simLoop, if_neg]
    · exact ih best s (fun c hc => h c (List.mem_cons_of_mem _ hc))
    · exact not_lt.mpr (h col (List.mem_cons_self _ _))

theorem detect_metric_and_agg_fst (sim : Str → Str → ℚ) (q : Str) (ct : Schema) :
    (detect_metric_and_agg sim q ct).1
      = (if optFalsy (simLoop sim (pyReplace " ".toList (pyLower q))
              (schemaNumericCols ct) none 0)
            && ! (schemaNumericCols ct).isEmpty
         then some ((schemaNumericCols ct).headD [])
         else simLoop sim (pyReplace " ".toList (pyLower q))
              (schemaNumericCols ct) none 0) := rfl

/-- **C10**: whenever the classification has at least one numeric column the
Intent Extractor returns a present metric; if no numeric column scores
positively the first numeric column is chosen; and the metric is `None`
when the numeric column set is empty. -/
theorem c10_metric_presence (sim : Str → Str → ℚ) (q : Str) (ct : Schema) :
    (schemaNumericCols ct ≠ [] → (detect_metric_and_agg sim q ct).1 ≠ none) ∧
    ((∀ c ∈ schemaNumericCols ct,
        sim (pyReplace " ".toList (pyLower q)) (pyReplace " ".toList (pyLower c)) ≤ 0) →
      schemaNumericCols ct ≠ [] →
      (detect_metric_and_agg sim q ct).1 = some ((schemaNumericCols ct).headD [])) ∧
    (schemaNumericCols ct = [] → (detect_metric_and_agg sim q ct).1 = none) := by
  refine ⟨?_, ?_, ?_⟩
  · intro hne
    have hie : (schemaNumericCols ct).isEmpty = false := by
      cases h : schemaNumericCols ct with
      | nil => exact absurd h hne
      | cons a l => rfl
    rw [detect_metric_and_agg_fst]
    cases hbest : simLoop sim (pyReplace " ".toList (pyLower q))
        (schemaNumericCols ct) none 0 with
    | none =>
      rw [hie]
      intro hcon
      simp [optFalsy] at hcon
    | some s =>
      rw [hie]
      by_cases hs : s.isEmpty
      · rw [show optFalsy (some s) = true from hs]
        intro hcon
        simp at hcon
      · rw [show optFalsy (some s) = false from by simpa [optFalsy] using hs]
        intro hcon
        simp at hcon
  · intro hscore hne
    have hie : (schemaNumericCols ct).isEmpty = false := by
      cases h : schemaNumericCols ct with
      | nil => exact absurd h hne
      | cons a l => rfl
    rw [detect_metric_and_agg_fst, simLoop_const (schemaNumericCols ct) none 0 hscore, hie]
    simp [optFalsy]
  · intro hnil
    rw [detect_metric_and_agg_fst, hnil]
    rfl

/-- Witness for **C10**: under an all-zero similarity score the first
numeric column is chosen. -/
theorem c10_witness :
    (detect_metric_and_agg (fun _ _ => 0) "anything".toList c10Schema).1
      = some "salary".toList := by
  have h := (c10_metric_presence (fun _ _ => 0) "anything".toList c10Schema).2.1
    (fun c _ => le_refl 0) (by decide)
  exact h.trans (by decide)

/-! ## The rule-based fallback builder's special cases (C9) -/

/-- **C9** counterexample: the claim's second rule ("every question
containing 'count' but not 'by' yields SELECT COUNT(*) ...") ignores branch
precedence.  The question "count sample" contains `count` and not `by`, yet
the preview branch fires first and the builder returns the LIMIT-50 query,
not the COUNT query. -/
theorem c9_counterexample :
    pyIn "count".toList (pyLower "count sample".toList) = true
      ∧ pyIn "by".toList (pyLower "count sample".toList) = false
      ∧ question_to_sql (fun _ _ => 0) "count sample".toList {} "data".toList
          = "SELECT * FROM data LIMIT 50;".toList
      ∧ "SELECT * FROM data LIMIT 50;".toList
          ≠ "SELECT COUNT(*) AS value FROM data;".toList := by
  refine ⟨by decide, by decide, by decide, by decide⟩

/-- **C9** (amended): for the default table, any question containing a
preview keyword yields exactly `SELECT * FROM data LIMIT 50;` (bypassing
intent detection); and any question containing `count` but not `by` *and no
preview keyword* yields exactly `SELECT COUNT(*) AS value FROM data;`. -/
theorem c9_amended_fallback_special_cases (sim : Str → Str → ℚ) (q : Str) (ct : Schema) :
    ((∃ w ∈ PREVIEW_WORDS, pyIn w (pyLower q) = true) →
      question_to_sql sim q ct "data".toList = "SELECT * FROM data LIMIT 50;".toList) ∧
    ((∀ w ∈ PREVIEW_WORDS, pyIn w (pyLower q) = false) →
      pyIn "count".toList (pyLower q) = true →
      pyIn "by".toList (pyLower q) = false →
      question_to_sql sim q ct "data".toList
        = "SELECT COUNT(*) AS value FROM data;".toList) := by
  constructor
  · intro hex
    unfold question_to_sql
    dsimp only
    rw [if_pos (List.any_eq_true.mpr hex)]
    decide
  · intro hall hcount hby
    unfold question_to_sql
    dsimp only
    rw [if_neg, if_pos]
    · decide
    · rw [hcount, hby]
      rfl
    · intro hany
      rcases List.any_eq_true.mp hany with ⟨w, hw, hwq⟩
      have hf := hall w hw
      rw [hf] at hwq
      exact Bool.noConfusion hwq

/-- Witness for the amended **C9** on both rules. -/
theorem c9_witness :
    question_to_sql (fun _ _ => 0) "show me the data".toList {} "data".toList
      = "SELECT * FROM data LIMIT 50;".toList
    ∧ question_to_sql (fun _ _ => 0) "count rows".toList {} "data".toList
      = "SELECT COUNT(*) AS value FROM data;".toList := by
  constructor
  · exact (c9_amended_fallback_special_cases (fun _ _ => 0) "show me the data".toList {}).1
      ⟨"show me".toList, by decide, by decide⟩
  · exact (c9_amended_fallback_special_cases (fun _ _ => 0) "count rows".toList {}).2
      (by decide) (by decide) (by decide)

/-! ## The column classifier partition (C6) -/

theorem classifyLoop_mem_date {df : List Column} {num : List Str} :
    ∀ (ns : List Str) (x : Str), x ∈ (classifyLoop df num ns).1 →
      x ∈ ns ∧ x ∉ num ∧ detect_date_column (dfGet df x) = true := by
  intro ns
  induction ns with
  | nil => intro x hx; cases hx
  | cons n rest ih =>
    intro x hx
    rw [classifyLoop] at hx
    split at hx
    · rcases ih x hx with ⟨h1, h2, h3⟩
      exact ⟨List.mem_cons_of_mem _ h1, h2, h3⟩
    · rename_i hmem
      split at hx
      · rename_i hdate
        dsimp only at hx
        rcases List.mem_cons.mp hx with rfl | hx
        · exact ⟨List.mem_cons_self _ _, hmem, hdate⟩
        · rcases ih x hx with ⟨h1, h2, h3⟩
          exact ⟨List.mem_cons_of_mem _ h1, h2, h3⟩
      · dsimp only at hx
        rcases ih x hx with ⟨h1, h2, h3⟩
        exact ⟨List.mem_cons_of_mem _ h1, h2, h3⟩

theorem classifyLoop_mem_cat {df : List Column} {num : List Str} :
    ∀ (ns : List Str) (x : Str), x ∈ (classifyLoop df num ns).2 →
      x ∈ ns ∧ x ∉ num ∧ detect_date_column (dfGet df x) = false := by
  intro ns
  induction ns with
  | nil => intro x hx; cases hx
  | cons n rest ih =>
    intro x hx
    rw [classifyLoop] at hx
    split at hx
    · rcases ih x hx with ⟨h1, h2, h3⟩
      exact ⟨List.mem_cons_of_mem _ h1, h2, h3⟩
    · rename_i hmem
      split at hx
      · dsimp only at hx
        rcases ih x hx with ⟨h1, h2, h3⟩
        exact ⟨List.mem_cons_of_mem _ h1, h2, h3⟩
      · rename_i hdate
        dsimp only at hx
        rcases List.mem_cons.mp hx with rfl | hx
        · exact ⟨List.mem_cons_self _ _, hmem, by simpa using hdate⟩
        · rcases ih x hx with ⟨h1, h2, h3⟩
          exact ⟨List.mem_cons_of_mem _ h1, h2, h3⟩

theorem classifyLoop_complete {df : List Column} {num : List Str} :
    ∀ (ns : List Str) (x : Str), x ∈ ns → x ∉ num →
      x ∈ (classifyLoop df num ns).1 ∨ x ∈ (classifyLoop df num ns).2 := by
  intro ns
  induction ns with
  | nil => intro x hx; cases hx
  | cons n rest ih =>
    intro x hx hnum
    rw [classifyLoop]
    rcases List.mem_cons.mp hx with rfl | hx
    · rw [if_neg hnum]
      split
      · exact Or.inl (List.mem_cons_self _ _)
      · exact Or.inr (List.mem_cons_self _ _)
    · split
      · exact ih x hx hnum
      · split
        · rcases ih x hx hnum with h | h
          · exact Or.inl (List.mem_cons_of_mem _ h)
          · exact Or.inr h
        · rcases ih x hx hnum with h | h
          · exact Or.inl h
          · exact Or.inr (List.mem_cons_of_mem _ h)

theorem detect_column_types_eq (df : List Column) :
    detect_column_types df
      = { numeric := (df.filter (fun c => is64Numeric c.dtype)).map Column.name,
          categorical := (classifyLoop df
            ((df.filter (fun c => is64Numeric c.dtype)).map Column.name)
            (df.map Column.name)).2,
          date := (classifyLoop df
            ((df.filter (fun c => is64Numeric c.dtype)).map Column.name)
            (df.map Column.name)).1,
          numerical_columns := (df.filter (fun c => is64Numeric c.dtype)).map Column.name,
          categorical_columns := (classifyLoop df
            ((df.filter (fun c => is64Numeric c.dtype)).map Column.name)
            (df.map Column.name)).2,
          date_columns := (classifyLoop df
            ((df.filter (fun c => is64Numeric c.dtype)).map Column.name)
            (df.map Column.name)).1 } := rfl

/-- **C6**: for every dataset (unique column names, as produced by CSV
ingestion or a SQL read), the classifier's numeric, categorical and date
name sets are pairwise disjoint and together cover exactly the dataset's
columns; the classifier is a total function, so it always terminates. -/
theorem c6_classifier_partition (df : List Column)
    (_hnd : (df.map Column.name).Nodup) :
    (∀ n, (n ∈ (detect_column_types df).numeric
        ∨ n ∈ (detect_column_types df).categorical
        ∨ n ∈ (detect_column_types df).date) ↔ n ∈ df.map Column.name) ∧
    (∀ n, n ∈ (detect_column_types df).numeric →
      n ∉ (detect_column_types df).categorical ∧ n ∉ (detect_column_types df).date) ∧
    (∀ n, n ∈ (detect_column_types df).categorical →
      n ∉ (detect_column_types df).date) := by
  rw [detect_column_types_eq]
  dsimp only
  refine ⟨?_, ?_, ?_⟩
  · intro n
    constructor
    · rintro (h | h | h)
      · rcases List.mem_map.mp h with ⟨c, hc, rfl⟩
        exact List.mem_map.mpr ⟨c, List.mem_of_mem_filter hc, rfl⟩
      · exact (classifyLoop_mem_cat _ n h).1
      · exact (classifyLoop_mem_date _ n h).1
    · intro hn
      by_cases hnum : n ∈ (df.filter (fun c => is64Numeric c.dtype)).map Column.name
      · exact Or.inl hnum
      · rcases classifyLoop_complete (df.map Column.name) n hn hnum with h | h
        · exact Or.inr (Or.inr h)
        · exact Or.inr (Or.inl h)
  · intro n hn
    constructor
    · intro hc
      exact (classifyLoop_mem_cat _ n hc).2.1 hn
    · intro hd
      exact (classifyLoop_mem_date _ n hd).2.1 hn
  · intro n hc hd
    have h1 := (classifyLoop_mem_cat _ n hc).2.2
    have h2 := (classifyLoop_mem_date _ n hd).2.2
    rw [h1] at h2
    exact Bool.noConfusion h2

/-- Witness for **C6** on a concrete dataset. -/
theorem c6_witness :
    ("id".toList ∈ (detect_column_types c6Df).numeric
      ∨ "id".toList ∈ (detect_column_types c6Df).categorical
      ∨ "id".toList ∈ (detect_column_types c6Df).date)
    ∧ "city".toList ∉ (detect_column_types c6Df).date := by
  have h := c6_classifier_partition c6Df (by decide)
  exact ⟨(h.1 "id".toList).mpr (by decide), h.2.2 "city".toList (by decide)⟩

/-! ## Group-by detection through the " by " split (C5) -/

theorem pySplitAux_no_sep {sep : Str} :
    ∀ (fuel : Nat) (l acc : Str), ¬ sep <:+: l →
      pySplitAux sep fuel l acc = [acc.reverse ++ l] := by
  intro fuel
  induction fuel with
  | zero =>
    intro l acc _
    cases l with
    | nil => simp [pySplitAux]
    | cons c rest => rfl
  | succ n ih =>
    intro l acc h
    cases l with
    | nil => simp [pySplitAux]
    | cons c rest =>
      rw [pySplitAux, if_neg, ih rest (c :: acc)
        (fun hinf => h (List.infix_cons_iff.mpr (Or.inr hinf)))]
      · simp
      · rintro ⟨-, hpre⟩
        exact h (List.isPrefixOf_iff_prefix.mp hpre).isInfix

theorem pySplitAux_structure {sep : Str} (hsep : sep ≠ []) :
    ∀ (a c : Str) (fuel : Nat) (acc : Str),
      pyFind sep (a ++ (sep ++ c)) = some a.length →
      ¬ sep <:+: c →
      (a ++ (sep ++ c)).length ≤ fuel →
      pySplitAux sep fuel (a ++ (sep ++ c)) acc = [acc.reverse ++ a, c] := by
  intro a
  induction a with
  | nil =>
    intro c fuel acc _ hc hlen
    obtain ⟨s0, sep', rfl⟩ := List.exists_cons_of_ne_nil hsep
    rw [List.nil_append] at hlen ⊢
    cases fuel with
    | zero => simp at hlen
    | succ n =>
      rw [List.cons_append, pySplitAux, if_pos]
      · have hdrop : (sep' ++ c).drop ((s0 :: sep').length - 1) = c := by
          simp [List.drop_left]
        rw [hdrop, pySplitAux_no_sep n c [] hc]
        simp
      · constructor
        · simp
        · rw [List.isPrefixOf_iff_prefix]
          rw [← List.cons_append]
          exact List.prefix_append _ _
  | cons x a' ih =>
    intro c fuel acc hfind hc hlen
    rw [List.cons_append] at hfind hlen ⊢
    rw [pyFind] at hfind
    by_cases hpre : sep.isPrefixOf (x :: (a' ++ (sep ++ c))) = true
    · exfalso
      rw [if_pos hpre] at hfind
      have h0 := Option.some.inj hfind
      simp at h0
    · rw [if_neg hpre] at hfind
      have hfind' : pyFind sep (a' ++ (sep ++ c)) = some a'.length := by
        cases ho : pyFind sep (a' ++ (sep ++ c)) with
        | none => rw [ho] at hfind; cases hfind
        | some j =>
          rw [ho] at hfind
          simp only [Option.map_some'] at hfind
          have hj := Option.some.inj hfind
          simp only [List.length_cons] at hj
          have hj' : j = a'.length := by omega
          exact congrArg some hj'
      cases fuel with
      | zero => simp at hlen
      | succ n =>
        rw [pySplitAux, if_neg (fun hand => hpre hand.2)]
        rw [ih c n (x :: acc) hfind' hc (by simpa using hlen)]
        simp

theorem pySplit_two {sep a c : Str} (hsep : sep ≠ [])
    (hfind : pyFind sep (a ++ (sep ++ c)) = some a.length) (hc : ¬ sep <:+: c) :
    pySplit sep (a ++ (sep ++ c)) = [a, c] := by
  rw [pySplit, pySplitAux_structure hsep a c _ [] hfind hc (Nat.le_refl _)]
  simp

theorem find?_unique {p : Str → Bool} {cols : List Str} {col : Str}
    (hmem : col ∈ cols) (hp : p col = true)
    (huniq : ∀ col' ∈ cols, p col' = true → col' = col) :
    cols.find? p = some col := by
  induction cols with
  | nil => cases hmem
  | cons d rest ih =>
    by_cases hpd : p d = true
    · rw [List.find?_cons_of_pos _ hpd]
      exact congrArg some (huniq d (List.mem_cons_self _ _) hpd)
    · rw [List.find?_cons_of_neg _ (by simpa using hpd)]
      rcases List.mem_cons.mp hmem with rfl | hm
      · exact absurd hp hpd
      · exact ih hm (fun c' hc' hpc' => huniq c' (List.mem_cons_of_mem _ hc') hpc')

/-- **C5**: for a question of the form `"<head> by <category-substring>"`
(the displayed `" by "` being its first occurrence and the category part
containing no further `" by "`), if the trimmed category part occurs as a
(case-normalized) substring of exactly one categorical column name, then
group-by detection resolves to that column — whatever the similarity
function does. -/
theorem c5_group_by_unique_substring (sim : Str → Str → ℚ) (question a c : Str)
    (ct : Schema) (col : Str)
    (hq : pyLower question = a ++ " by ".toList ++ c)
    (hfind : pyFind " by ".toList (pyLower question) = some a.length)
    (hcby : pyIn " by ".toList c = false)
    (hmem : col ∈ schemaCategoryCols ct)
    (hsub : pyIn (pyStrip c) (pyLower col) = true)
    (huniq : ∀ col' ∈ schemaCategoryCols ct,
      pyIn (pyStrip c) (pyLower col') = true → col' = col) :
    detect_group_by sim question ct = some col := by
  have hcprop : ¬ (" by ".toList <:+: c) := by
    intro hinf
    rw [pyIn_iff.mpr hinf] at hcby
    exact Bool.noConfusion hcby
  have hq' : pyLower question = a ++ (" by ".toList ++ c) := by
    rw [hq, List.append_assoc]
  have hcols : schemaCategoryCols ct ≠ [] := by
    intro h
    rw [h] at hmem
    cases hmem
  have hin : pyIn " by ".toList (pyLower question) = true := by
    rw [hq]
    exact pyIn_iff.mpr ⟨a, c, rfl⟩
  have hsplit : pySplit " by ".toList (pyLower question) = [a, c] := by
    rw [hq']
    refine pySplit_two (by decide) ?_ hcprop
    rw [← hq']
    exact hfind
  unfold detect_group_by
  rw [if_neg hcols]
  rw [hin]
  rw [if_pos rfl]
  rw [hsplit]
  rw [show (([a, c] : List Str).getD 1 []) = c from rfl]
  rw [find?_unique hmem hsub huniq]

/-- Witness for **C5** on the spec's own scenario. -/
theorem c5_witness :
    detect_group_by (fun _ _ => 0) "average salary by department".toList c5Schema
      = some "department".toList :=
  c5_group_by_unique_substring (fun _ _ => 0) "average salary by department".toList
    "average salary".toList "department".toList c5Schema "department".toList
    (by decide) (by decide) (by decide) (by decide) (by decide) (by decide)

/-- Witness for the amended **C8** on a fenced SQL block. -/
theorem c8_witness :
    clean_sql (clean_sql "```sql\nSELECT * FROM data;\n```".toList)
      = clean_sql "```sql\nSELECT * FROM data;\n```".toList :=
  c8_amended_cleanup_idempotent "```sql\nSELECT * FROM data;\n```".toList (by decide)

end DataAnalyst
